import Mathlib

/-!
Verification development for `docker_cp.py`: a tool copying a single file
between the local filesystem and a running container via tar-stream archive
exchange.

The embedding below follows the Python source:
* the file-mode bit constants and the predicates `_is_dir` / `_is_reg`;
* the chunk-to-stream adapter `_Reader` (state = remaining generator chunks
  plus a residual buffer, byte strings modelled as `List Nat`);
* the orchestrator functions `copy_from` / `copy_to`, modelled as functions
  from an explicit world (the answers of the container engine and the local
  filesystem) to an outcome plus a trace of engine/filesystem events;
* the CLI driver `copy`, mapping outcomes to exit codes.
-/

/-! ## Mode bits (ported in the source from Go's os/types.go) -/

def DEFAULT_BUF_SIZE : Nat := 1024

def MODE_DIR : Nat := 1 <<< (32 - 1)
def MODE_SYMLINK : Nat := 1 <<< (32 - 4)
def MODE_DEV : Nat := 1 <<< (32 - 5)
def MODE_NAMED_PIPE : Nat := 1 <<< (32 - 6)
def MODE_SOCKET : Nat := 1 <<< (32 - 7)
def MODE_CHAR_DEV : Nat := 1 <<< (32 - 10)
def MODE_IRREGULAR : Nat := 1 <<< (32 - 12)

def MODE_REG : Nat :=
  MODE_DIR ||| MODE_SYMLINK ||| MODE_NAMED_PIPE ||| MODE_SOCKET ||| MODE_DEV
    ||| MODE_CHAR_DEV ||| MODE_IRREGULAR

def _is_dir (mode : Nat) : Bool := mode &&& MODE_DIR != 0

def _is_reg (mode : Nat) : Bool := mode &&& MODE_REG == 0

/-- The spec's wording for "directory": only the directory bit is set, i.e.
the directory bit is set and none of the other special bits are. Kept
separate from `_is_dir` (which is translated from the code) so the two can
be compared. -/
def dirOnlySpec (m : Nat) : Prop :=
  m &&& MODE_DIR ≠ 0 ∧ m &&& MODE_SYMLINK = 0 ∧ m &&& MODE_DEV = 0 ∧
    m &&& MODE_NAMED_PIPE = 0 ∧ m &&& MODE_SOCKET = 0 ∧
    m &&& MODE_CHAR_DEV = 0 ∧ m &&& MODE_IRREGULAR = 0

/-! ## The chunk-to-stream adapter `_Reader`

Byte strings are modelled as `List Nat`. The adapter state holds the not yet
consumed generator chunks (`gen`) and the residual buffer (`buf`),
mirroring `self._generator` / `self._buf`. -/

structure RState where
  gen : List (List Nat)
  buf : List Nat
deriving DecidableEq, Repr

/-- The `while len(rv) < n` loop of `_Reader.read`: each iteration pulls the
next chunk `data`, appends `self._buf ++ data[:n-len(rv)]` to `rv` and sets
`self._buf = data[n-len(rv):]`; it stops when `rv` is long enough or the
generator is exhausted. Returns `(rv, remaining generator, buffer)`. -/
def readAux (n : Nat) : List (List Nat) → List Nat → List Nat →
    List Nat × List (List Nat) × List Nat
  | [], rv, buf => (rv, [], buf)
  | data :: rest, rv, buf =>
    if rv.length < n then
      readAux n rest (rv ++ buf ++ data.take (n - rv.length))
        (data.drop (n - rv.length))
    else (rv, data :: rest, buf)

/-- `_Reader.read(n)`: if the buffer already holds at least `n` bytes,
return its first `n` bytes and keep the rest; otherwise start from the
whole buffer and pull chunks until `n` bytes are gathered or the generator
ends. -/
def RState.read (s : RState) (n : Nat) : List Nat × RState :=
  if n ≤ s.buf.length then
    (s.buf.take n, ⟨s.gen, s.buf.drop n⟩)
  else
    let r := readAux n s.gen s.buf []
    (r.1, ⟨r.2.1, r.2.2⟩)

/-- `_Reader.__init__`: fresh adapter over a chunk generator, empty buffer. -/
def RState.init (chunks : List (List Nat)) : RState := ⟨chunks, []⟩

/-- All bytes the adapter has not yet handed out, in order. -/
def RState.remaining (s : RState) : List Nat := s.buf ++ s.gen.flatten

/-- Issue a sequence of reads, collecting the outputs. -/
def RState.readMany (s : RState) : List Nat → List (List Nat) × RState
  | [] => ([], s)
  | n :: ns =>
    let p := s.read n
    let q := p.2.readMany ns
    (p.1 :: q.1, q.2)

/-! ## Path helpers

`os.path.basename` / `os.path.dirname` (POSIX): split at the last slash;
the head keeps its trailing slashes only when it consists of slashes alone.
`splitSep` is `s.split(SEP, maxsplit=1)` for a string containing `SEP`,
with `SEP = ':'`. -/

def basenameChars (p : List Char) : List Char :=
  (p.reverse.takeWhile (fun c => c ≠ '/')).reverse

def dirnameChars (p : List Char) : List Char :=
  let head := (p.reverse.dropWhile (fun c => c ≠ '/')).reverse
  if head ≠ [] ∧ head.any (fun c => c ≠ '/') then
    (head.reverse.dropWhile (fun c => c = '/')).reverse
  else head

def basename (s : String) : String := String.mk (basenameChars s.data)

def dirname (s : String) : String := String.mk (dirnameChars s.data)

/-- `SEP in s` for `SEP = ':'`. -/
def hasSep (s : String) : Bool := s.data.contains ':'

/-- `s.split(SEP, maxsplit=1)` for a string that contains `SEP`: the part
before the first `':'` and everything after it. -/
def splitSep (s : String) : String × String :=
  (String.mk (s.data.takeWhile (fun c => c ≠ ':')),
    String.mk ((s.data.dropWhile (fun c => c ≠ ':')).drop 1))

/-! ## Archive transfer orchestrator

`copy_from` / `copy_to` are modelled as functions from an explicit world —
the answers the container engine and the local filesystem would give —
to an outcome together with the trace of engine/filesystem events, in the
order the source performs them. `Outcome.other` stands for an exception
that is neither `APIError` nor `CopyError` (e.g. a tar decoding error);
the driver lets it propagate unmapped. -/

inductive Outcome where
  | ok
  | apiError
  | copyError (msg : String)
  | other
deriving DecidableEq, Repr

inductive Event where
  | fetch (path : String) (chunkSize : Nat)
  | statFetch (path : String)
  | tarOpen (bufsize : Nat)
  | extractAll (dest : String)
  | writeFile (dest : String) (content : List Nat)
  | putArchive (destDir : String) (entries : List (String × List Nat))
  | closeData
deriving DecidableEq, Repr

/-- World a download runs against: `fetchRes` is `container.get_archive`
(either an `APIError` or the metadata mode `st['mode']`); `entryBytes` is
the payload of the single tar entry decoded from the stream; `tarFails`
models the tar decoder raising (an exception that is neither `APIError`
nor `CopyError`); the last three answer `os.path.isdir(dest)`,
`os.path.isdir(os.path.dirname(dest))` and whether `open(dest, 'wb')`
raises `IsADirectoryError`. -/
structure DownloadWorld where
  fetchRes : Except Unit Nat
  entryBytes : List Nat
  tarFails : Bool
  destIsDir : Bool
  parentIsDir : Bool
  destOpenIsADir : Bool
deriving Repr

/-- `copy_from(container, path, dest)`: fetch the archive with
`chunk_size=DEFAULT_BUF_SIZE`, reject non-regular modes, decode the tar
stream, then either extract into an existing directory destination, or
require the destination's parent directory and stream the entry's payload
into the destination file; `data.close()` always runs (`finally`). -/
def copy_from (w : DownloadWorld) (path dest : String) : Outcome × List Event :=
  match w.fetchRes with
  | .error _ => (.apiError, [.fetch path DEFAULT_BUF_SIZE])
  | .ok mode =>
    if ! _is_reg mode then
      (.copyError "Only regular files are supported",
        [.fetch path DEFAULT_BUF_SIZE, .closeData])
    else if w.tarFails then
      (.other, [.fetch path DEFAULT_BUF_SIZE, .closeData])
    else if w.destIsDir then
      (.ok, [.fetch path DEFAULT_BUF_SIZE, .tarOpen DEFAULT_BUF_SIZE,
        .extractAll dest, .closeData])
    else if ! w.parentIsDir then
      (.copyError ("Not a directory: " ++ dirname dest),
        [.fetch path DEFAULT_BUF_SIZE, .tarOpen DEFAULT_BUF_SIZE, .closeData])
    else if w.destOpenIsADir then
      (.copyError "Destination is a directory",
        [.fetch path DEFAULT_BUF_SIZE, .tarOpen DEFAULT_BUF_SIZE, .closeData])
    else
      (.ok, [.fetch path DEFAULT_BUF_SIZE, .tarOpen DEFAULT_BUF_SIZE,
        .writeFile dest w.entryBytes, .closeData])

/-- World an upload runs against: `srcIsFile` is `os.path.isfile(src)`;
`statRes` is `get_stat` (an `APIError` or the mode); `srcBytes` is the
local file's content; `putFails` models `container.put_archive` raising an
`APIError`. -/
structure UploadWorld where
  srcIsFile : Bool
  statRes : Except Unit Nat
  srcBytes : List Nat
  putFails : Bool
deriving Repr

/-- `copy_to(container, path, src)`: require a regular local source, stat
the in-container destination, resolve `(dest_dir, dest_file)` per the
stat's outcome, then build a tar stream with the single entry
`(dest_file, bytes of src)` and hand it to `put_archive(dest_dir, ...)`.
A mode that is neither `_is_dir` nor `_is_reg` is rejected. -/
def copy_to (w : UploadWorld) (path src : String) : Outcome × List Event :=
  if ! w.srcIsFile then
    (.copyError ("Not a file: " ++ src), [])
  else
    match (match w.statRes with
      | .error _ => Except.ok (dirname path, basename path)
      | .ok mode =>
        if _is_dir mode then Except.ok (path, basename src)
        else if _is_reg mode then Except.ok (dirname path, basename path)
        else Except.error ()) with
    | .error _ =>
      (.copyError ("Unable to overwrite " ++ path), [.statFetch path])
    | .ok dd =>
      ((if w.putFails then Outcome.apiError else Outcome.ok),
        [.statFetch path, .putArchive dd.1 [(dd.2, w.srcBytes)]])

/-! ## CLI driver `copy` -/

structure Args where
  source : String
  destination : String
  buffer_length : Int
deriving DecidableEq, Repr

/-- Result of `docker.from_env()` + `client.containers.get(name)`:
success, an `APIError`, or some other exception (e.g. a
`DockerException` from `from_env`), which `copy` does not catch. -/
inductive LookupRes where
  | ok
  | apiError
  | other
deriving DecidableEq, Repr

structure CopyEnv where
  lookup : LookupRes
  dl : DownloadWorld
  ul : UploadWorld
deriving Repr

/-- The body of `copy`'s `try` block: container lookup, then the chosen
action. An exception in the lookup yields an empty event trace. -/
def tryBlock (env : CopyEnv) (run : CopyEnv → Outcome × List Event) :
    Outcome × List Event :=
  match env.lookup with
  | .apiError => (.apiError, [])
  | .other => (.other, [])
  | .ok => run env

/-- `copy`'s `except` clauses: `APIError` and `CopyError` become exit code
2, success is 0, anything else is re-raised (modelled as `.error ()`). -/
def mapOutcome : Outcome × List Event → Except Unit (Nat × List Event)
  | (.ok, tr) => .ok (0, tr)
  | (.apiError, tr) => .ok (2, tr)
  | (.copyError _, tr) => .ok (2, tr)
  | (.other, _) => .error ()

/-- `copy(args)`: validate the buffer length, resolve the direction from
which argument carries the `container:path` form, run the action inside
the `try` block and map the outcome to an exit code. -/
def copy (env : CopyEnv) (args : Args) : Except Unit (Nat × List Event) :=
  if args.buffer_length ≤ 0 then .ok (1, [])
  else if hasSep args.source && ! hasSep args.destination then
    mapOutcome (tryBlock env
      (fun e => copy_from e.dl (splitSep args.source).2 args.destination))
  else if hasSep args.destination && ! hasSep args.source then
    mapOutcome (tryBlock env
      (fun e => copy_to e.ul (splitSep args.destination).2 args.source))
  else .ok (1, [])

/-- The lookup-plus-action composite attempted by a valid invocation,
before exit-code mapping. -/
def attempt (env : CopyEnv) (args : Args) : Outcome × List Event :=
  if hasSep args.source && ! hasSep args.destination then
    tryBlock env
      (fun e => copy_from e.dl (splitSep args.source).2 args.destination)
  else
    tryBlock env
      (fun e => copy_to e.ul (splitSep args.destination).2 args.source)

/-! ### Bitwise helper lemmas -/

theorem land_lor_eq_zero_iff (m a b : Nat) :
    m &&& (a ||| b) = 0 ↔ m &&& a = 0 ∧ m &&& b = 0 := by
  constructor
  · intro h
    have key : ∀ i, (m.testBit i && (a.testBit i || b.testBit i)) = false := by
      intro i
      have h' := congrArg (fun x => Nat.testBit x i) h
      simpa [Nat.testBit_and, Nat.testBit_or] using h'
    constructor
    · apply Nat.eq_of_testBit_eq
      intro i
      have k := key i
      simp only [Nat.testBit_and, Nat.zero_testBit]
      cases hm : m.testBit i <;> cases ha : a.testBit i <;> simp_all
    · apply Nat.eq_of_testBit_eq
      intro i
      have k := key i
      simp only [Nat.testBit_and, Nat.zero_testBit]
      cases hm : m.testBit i <;> cases hb : b.testBit i <;> simp_all
  · rintro ⟨ha, hb⟩
    apply Nat.eq_of_testBit_eq
    intro i
    have ka := congrArg (fun x => Nat.testBit x i) ha
    have kb := congrArg (fun x => Nat.testBit x i) hb
    simp only [Nat.testBit_and, Nat.zero_testBit] at ka kb ⊢
    simp only [Nat.testBit_or]
    cases hm : m.testBit i <;> simp_all

theorem land_mode_reg_eq_zero_iff (m : Nat) :
    m &&& MODE_REG = 0 ↔
      m &&& MODE_DIR = 0 ∧ m &&& MODE_SYMLINK = 0 ∧ m &&& MODE_NAMED_PIPE = 0 ∧
        m &&& MODE_SOCKET = 0 ∧ m &&& MODE_DEV = 0 ∧ m &&& MODE_CHAR_DEV = 0 ∧
        m &&& MODE_IRREGULAR = 0 := by
  show m &&& (MODE_DIR ||| MODE_SYMLINK ||| MODE_NAMED_PIPE ||| MODE_SOCKET |||
      MODE_DEV ||| MODE_CHAR_DEV ||| MODE_IRREGULAR) = 0 ↔ _
  rw [land_lor_eq_zero_iff, land_lor_eq_zero_iff, land_lor_eq_zero_iff,
    land_lor_eq_zero_iff, land_lor_eq_zero_iff, land_lor_eq_zero_iff]
  tauto

/-- C6: `_is_reg` holds iff none of the seven special mode bits are set;
an all-zero mode is classified as a regular file. -/
theorem is_reg_iff_no_special_bits :
    (∀ m : Nat, m < 2 ^ 32 →
      (_is_reg m = true ↔
        m &&& MODE_DIR = 0 ∧ m &&& MODE_SYMLINK = 0 ∧ m &&& MODE_DEV = 0 ∧
          m &&& MODE_NAMED_PIPE = 0 ∧ m &&& MODE_SOCKET = 0 ∧
          m &&& MODE_CHAR_DEV = 0 ∧ m &&& MODE_IRREGULAR = 0)) ∧
    _is_reg 0 = true := by
  constructor
  · intro m _
    unfold _is_reg
    rw [beq_iff_eq, land_mode_reg_eq_zero_iff]
    tauto
  · decide

theorem is_reg_iff_no_special_bits_witness :
    _is_reg 5 = true ∧ (5 : Nat) &&& MODE_DIR = 0 :=
  ⟨((is_reg_iff_no_special_bits.1 5 (by decide)).mpr (by decide)),
    ((is_reg_iff_no_special_bits.1 5 (by decide)).mp (by decide)).1⟩

/-- C4 counterexample: a mode with both the directory and the symlink bits
set is classified as a directory by `_is_dir`, although not only the
directory bit is set — refuting "`_is_dir` holds iff only the directory bit
is set". -/
theorem is_dir_not_dir_only_bit :
    _is_dir (MODE_DIR ||| MODE_SYMLINK) = true ∧
      ¬ dirOnlySpec (MODE_DIR ||| MODE_SYMLINK) := by
  constructor
  · decide
  · intro h
    exact absurd h.2.1 (by decide)

theorem readAux_spec (n : Nat) :
    ∀ (gen : List (List Nat)) (rv buf : List Nat),
      rv.length ≤ n → (rv.length < n → buf = []) →
      (readAux n gen rv buf).1 = (rv ++ buf ++ gen.flatten).take n ∧
      (readAux n gen rv buf).2.2 ++ (readAux n gen rv buf).2.1.flatten =
        (rv ++ buf ++ gen.flatten).drop n := by
  intro gen
  induction gen with
  | nil =>
    intro rv buf h1 h2
    simp only [readAux, List.flatten_nil, List.append_nil]
    rcases Nat.lt_or_ge rv.length n with hlt | hge
    · have hb : buf = [] := h2 hlt
      subst hb
      simp [List.take_of_length_le h1, List.drop_eq_nil_of_le h1]
    · have he : rv.length = n := Nat.le_antisymm h1 hge
      refine ⟨?_, ?_⟩
      · rw [List.take_left' he]
      · rw [List.drop_left' he]
  | cons data rest ih =>
    intro rv buf h1 h2
    by_cases hlt : rv.length < n
    · have hb : buf = [] := h2 hlt
      subst hb
      have hstep : readAux n (data :: rest) rv [] =
          readAux n rest (rv ++ [] ++ data.take (n - rv.length))
            (data.drop (n - rv.length)) := by
        simp [readAux, hlt]
      set k := n - rv.length with hk
      have hlen : (rv ++ [] ++ data.take k).length ≤ n := by
        simp only [List.append_nil, List.length_append, List.length_take]
        have : min k data.length ≤ k := Nat.min_le_left _ _
        omega
      have hbuf : (rv ++ [] ++ data.take k).length < n → data.drop k = [] := by
        intro hl
        simp only [List.append_nil, List.length_append, List.length_take] at hl
        apply List.drop_eq_nil_of_le
        omega
      have ihres := ih (rv ++ [] ++ data.take k) (data.drop k) hlen hbuf
      have harr : rv ++ [] ++ data.take k ++ data.drop k ++ rest.flatten =
          rv ++ [] ++ (data :: rest).flatten := by
        simp only [List.append_nil, List.flatten_cons, List.append_assoc]
        rw [← List.append_assoc (data.take k) (data.drop k),
          List.take_append_drop]
      rw [hstep]
      refine ⟨?_, ?_⟩
      · rw [ihres.1, harr]
      · rw [ihres.2, harr]
    · have he : rv.length = n := Nat.le_antisymm h1 (Nat.le_of_not_lt hlt)
      have hstep : readAux n (data :: rest) rv buf = (rv, data :: rest, buf) := by
        simp [readAux, hlt]
      rw [hstep]
      refine ⟨?_, ?_⟩
      · show rv = ((rv ++ buf) ++ (data :: rest).flatten).take n
        rw [List.append_assoc, List.take_left' he]
      · show buf ++ (data :: rest).flatten =
          ((rv ++ buf) ++ (data :: rest).flatten).drop n
        rw [List.append_assoc, List.drop_left' he]

theorem read_spec (s : RState) (n : Nat) :
    (s.read n).1 = s.remaining.take n ∧
      (s.read n).2.remaining = s.remaining.drop n := by
  unfold RState.read RState.remaining
  by_cases h : n ≤ s.buf.length
  · simp only [h, if_true]
    constructor
    · rw [List.take_append_eq_append_take, Nat.sub_eq_zero_of_le h,
        List.take_zero, List.append_nil]
    · rw [List.drop_append_eq_append_drop, Nat.sub_eq_zero_of_le h,
        List.drop_zero]
  · simp only [h, if_false]
    have hle : s.buf.length ≤ n := Nat.le_of_lt (Nat.lt_of_not_le h)
    have hspec := readAux_spec n s.gen s.buf [] hle (fun _ => rfl)
    simp only [List.append_nil] at hspec
    exact hspec

theorem readMany_spec (ns : List Nat) :
    ∀ s : RState,
      (s.readMany ns).1.flatten ++ (s.readMany ns).2.remaining = s.remaining ∧
      (s.readMany ns).2.remaining = s.remaining.drop ns.sum := by
  induction ns with
  | nil => intro s; simp [RState.readMany]
  | cons n ns ih =>
    intro s
    have hr := read_spec s n
    have hi := ih (s.read n).2
    simp only [RState.readMany, List.flatten_cons, List.sum_cons]
    constructor
    · rw [List.append_assoc, hi.1, hr.1, hr.2, List.take_append_drop]
    · rw [hi.2, hr.2, List.drop_drop]

/-- C1: adapter exactness. (1) If the caller's read sizes sum to at least
the total number of bytes, the concatenation of all `read` results equals
the concatenation of the source chunks in order. (2) A read requesting at
least the remaining bytes returns exactly the remaining bytes. (3) After
such a read, every subsequent read returns the empty byte string. -/
theorem reader_exactness :
    (∀ (chunks : List (List Nat)) (ns : List Nat),
      chunks.flatten.length ≤ ns.sum →
      ((RState.init chunks).readMany ns).1.flatten = chunks.flatten) ∧
    (∀ (s : RState) (n : Nat), s.remaining.length ≤ n →
      (s.read n).1 = s.remaining) ∧
    (∀ (s : RState) (n m : Nat), s.remaining.length ≤ n →
      ((s.read n).2.read m).1 = []) := by
  refine ⟨?_, ?_, ?_⟩
  · intro chunks ns h
    have hinit : (RState.init chunks).remaining = chunks.flatten := by
      simp [RState.init, RState.remaining]
    have hm := readMany_spec ns (RState.init chunks)
    have hnil : ((RState.init chunks).readMany ns).2.remaining = [] := by
      rw [hm.2, hinit]
      exact List.drop_eq_nil_of_le h
    have hout := hm.1
    rw [hnil, List.append_nil, hinit] at hout
    exact hout
  · intro s n h
    rw [(read_spec s n).1, List.take_of_length_le h]
  · intro s n m h
    have h2 : (s.read n).2.remaining = [] := by
      rw [(read_spec s n).2]
      exact List.drop_eq_nil_of_le h
    rw [(read_spec (s.read n).2 m).1, h2, List.take_nil]

/-- C1 witness: the spec's own example, five chunks `abc` read with sizes
1, 2, 4, 7 and then 5 (total 19 ≥ 15), reproduces the whole byte
sequence; a read past the end returns the remainder; a further read is
empty. -/
theorem reader_exactness_witness :
    ((RState.init [[97, 98, 99], [97, 98, 99], [97, 98, 99], [97, 98, 99],
        [97, 98, 99]]).readMany [1, 2, 4, 7, 5]).1.flatten =
      [[97, 98, 99], [97, 98, 99], [97, 98, 99], [97, 98, 99],
        [97, 98, 99]].flatten ∧
    ((RState.init [[97, 98, 99]]).read 7).1 =
      (RState.init [[97, 98, 99]]).remaining ∧
    (((RState.init [[97, 98, 99]]).read 7).2.read 4).1 = [] :=
  ⟨reader_exactness.1 _ _ (by decide),
    reader_exactness.2.1 _ _ (by decide),
    reader_exactness.2.2 _ 7 4 (by decide)⟩

theorem takeWhile_no_sep (b : List Char) :
    ∀ a : List Char, ':' ∉ a →
      (a ++ ':' :: b).takeWhile (fun c => c ≠ ':') = a ∧
      (a ++ ':' :: b).dropWhile (fun c => c ≠ ':') = ':' :: b := by
  intro a
  induction a with
  | nil => intro _; constructor <;> simp [List.takeWhile, List.dropWhile]
  | cons c cs ih =>
    intro h
    have hc : c ≠ ':' := fun hceq => h (hceq ▸ List.mem_cons_self c cs)
    have hcs : ':' ∉ cs := fun hmem => h (List.mem_cons_of_mem c hmem)
    have := ih hcs
    constructor
    · simp only [List.cons_append, List.takeWhile_cons, hc, decide_True,
        if_true, this.1]
      simp [hc]
    · simp only [List.cons_append, List.dropWhile_cons, hc, decide_True,
        if_true, this.2]
      simp [hc]

/-- C10: the container-addressed argument is split at its first colon only:
the container name is the text before the first colon, and the in-container
path is everything after it, colons included, passed through intact. -/
theorem split_at_first_sep (a b : List Char) (h : ':' ∉ a) :
    splitSep (String.mk (a ++ ':' :: b)) = (String.mk a, String.mk b) := by
  unfold splitSep
  have hs := takeWhile_no_sep b a h
  simp only [hs.1, hs.2, List.drop_succ_cons, List.drop_zero]

/-- C10 witness: `"test:/etc/app:conf.d"` splits into container `"test"`
and in-container path `"/etc/app:conf.d"`, keeping the second colon. -/
theorem split_at_first_sep_witness :
    splitSep (String.mk ("test".data ++ ':' :: "/etc/app:conf.d".data)) =
      (String.mk "test".data, String.mk "/etc/app:conf.d".data) :=
  split_at_first_sep "test".data "/etc/app:conf.d".data (by decide)

/-! ## Claims about the orchestrator -/

theorem not_reg_of_special_bit (mode : Nat)
    (h : mode &&& MODE_DIR ≠ 0 ∨ mode &&& MODE_SYMLINK ≠ 0 ∨
      mode &&& MODE_DEV ≠ 0 ∨ mode &&& MODE_NAMED_PIPE ≠ 0 ∨
      mode &&& MODE_SOCKET ≠ 0 ∨ mode &&& MODE_CHAR_DEV ≠ 0 ∨
      mode &&& MODE_IRREGULAR ≠ 0) :
    _is_reg mode = false := by
  unfold _is_reg
  rw [beq_eq_false_iff_ne]
  intro hz
  rw [land_mode_reg_eq_zero_iff] at hz
  tauto

/-- C5: a download whose fetched metadata mode has any special bit set
(directory, symlink, device, named pipe, socket, char device, irregular)
stops with the copy error "Only regular files are supported"; the trace
shows the archive fetch and the stream release only — no tar decoding, no
extraction, no file write. -/
theorem download_rejects_nonregular (w : DownloadWorld) (path dest : String)
    (mode : Nat) (hf : w.fetchRes = .ok mode)
    (hs : mode &&& MODE_DIR ≠ 0 ∨ mode &&& MODE_SYMLINK ≠ 0 ∨
      mode &&& MODE_DEV ≠ 0 ∨ mode &&& MODE_NAMED_PIPE ≠ 0 ∨
      mode &&& MODE_SOCKET ≠ 0 ∨ mode &&& MODE_CHAR_DEV ≠ 0 ∨
      mode &&& MODE_IRREGULAR ≠ 0) :
    copy_from w path dest =
      (.copyError "Only regular files are supported",
        [.fetch path DEFAULT_BUF_SIZE, .closeData]) := by
  have hr : _is_reg mode = false := not_reg_of_special_bit mode hs
  simp [copy_from, hf, hr]

/-- C5 witness: fetching a directory-only mode yields the error with no
decode step. -/
theorem download_rejects_nonregular_witness :
    copy_from ⟨.ok MODE_DIR, [], false, false, false, false⟩ "/etc" "/tmp/fr" =
      (.copyError "Only regular files are supported",
        [.fetch "/etc" DEFAULT_BUF_SIZE, .closeData]) :=
  download_rejects_nonregular _ _ _ MODE_DIR rfl (Or.inl (by decide))

/-- C7: a download whose destination is not an existing directory and whose
parent directory does not exist fails with the copy error naming the
missing parent (`"Not a directory: " ++ dirname dest`); the trace contains
no file write and no extraction. -/
theorem download_missing_parent (w : DownloadWorld) (path dest : String)
    (mode : Nat) (hf : w.fetchRes = .ok mode) (hr : _is_reg mode = true)
    (ht : w.tarFails = false) (hd : w.destIsDir = false)
    (hp : w.parentIsDir = false) :
    copy_from w path dest =
      (.copyError ("Not a directory: " ++ dirname dest),
        [.fetch path DEFAULT_BUF_SIZE, .tarOpen DEFAULT_BUF_SIZE,
          .closeData]) := by
  simp [copy_from, hf, hr, ht, hd, hp]

/-- C7 witness: destination `/tmp/test/fr` with no `/tmp/test` directory
fails naming `/tmp/test`, and nothing is written. -/
theorem download_missing_parent_witness :
    copy_from ⟨.ok 0, [], false, false, false, false⟩
        "/etc/fedora-release" "/tmp/test/fr" =
      (.copyError ("Not a directory: " ++ dirname "/tmp/test/fr"),
        [.fetch "/etc/fedora-release" DEFAULT_BUF_SIZE,
          .tarOpen DEFAULT_BUF_SIZE, .closeData]) ∧
    dirname "/tmp/test/fr" = "/tmp/test" :=
  ⟨download_missing_parent _ _ _ 0 rfl (by decide) rfl rfl rfl, by decide⟩

/-- C3: upload destination resolution. With an existing regular local
source: a failed stat resolves to `(dirname path, basename path)`; a mode
classified as directory resolves to `(path, basename src)`; a mode
classified as regular resolves to `(dirname path, basename path)`. In each
case the engine's archive-upload call targets the resolved directory with
a tar stream of exactly one entry: the local file's bytes under the
resolved name. -/
theorem upload_dest_resolution (w : UploadWorld) (path src : String)
    (hsrc : w.srcIsFile = true) :
    (w.statRes = .error () →
      (copy_to w path src).2 =
        [.statFetch path,
          .putArchive (dirname path) [(basename path, w.srcBytes)]]) ∧
    (∀ mode, w.statRes = .ok mode → _is_dir mode = true →
      (copy_to w path src).2 =
        [.statFetch path, .putArchive path [(basename src, w.srcBytes)]]) ∧
    (∀ mode, w.statRes = .ok mode → _is_reg mode = true →
      (copy_to w path src).2 =
        [.statFetch path,
          .putArchive (dirname path) [(basename path, w.srcBytes)]]) := by
  refine ⟨?_, ?_, ?_⟩
  · intro hst
    simp [copy_to, hsrc, hst]
  · intro mode hst hdir
    simp [copy_to, hsrc, hst, hdir]
  · intro mode hst hreg
    have hdir : _is_dir mode = false := by
      unfold _is_reg at hreg
      rw [beq_iff_eq, land_mode_reg_eq_zero_iff] at hreg
      unfold _is_dir
      simp [hreg.1]
    simp [copy_to, hsrc, hst, hdir, hreg]

/-- C3 witness: the three resolutions at concrete inputs. -/
theorem upload_dest_resolution_witness :
    ((copy_to ⟨true, .error (), [115], false⟩ "/tmp/d/f" "/home/src1").2 =
      [.statFetch "/tmp/d/f",
        .putArchive (dirname "/tmp/d/f") [(basename "/tmp/d/f", [115])]]) ∧
    ((copy_to ⟨true, .ok MODE_DIR, [115], false⟩ "/tmp/d" "/home/src1").2 =
      [.statFetch "/tmp/d", .putArchive "/tmp/d" [(basename "/home/src1", [115])]]) ∧
    ((copy_to ⟨true, .ok 0, [115], false⟩ "/tmp/d/f" "/home/src1").2 =
      [.statFetch "/tmp/d/f",
        .putArchive (dirname "/tmp/d/f") [(basename "/tmp/d/f", [115])]]) :=
  ⟨(upload_dest_resolution ⟨true, .error (), [115], false⟩ _ _ rfl).1 rfl,
    (upload_dest_resolution ⟨true, .ok MODE_DIR, [115], false⟩ _ _ rfl).2.1
      MODE_DIR rfl (by decide),
    (upload_dest_resolution ⟨true, .ok 0, [115], false⟩ _ _ rfl).2.2
      0 rfl (by decide)⟩

/-- C8: upload copy-policy errors. A missing or non-regular local source
stops with `"Not a file: " ++ src` before any engine interaction (empty
trace); a destination stat mode that is neither directory nor regular
stops with `"Unable to overwrite " ++ path`, with no archive built or
uploaded (the trace holds the stat fetch only). -/
theorem upload_policy_errors (w : UploadWorld) (path src : String) :
    (w.srcIsFile = false →
      copy_to w path src = (.copyError ("Not a file: " ++ src), [])) ∧
    (∀ mode, w.srcIsFile = true → w.statRes = .ok mode →
      _is_dir mode = false → _is_reg mode = false →
      copy_to w path src =
        (.copyError ("Unable to overwrite " ++ path), [.statFetch path])) := by
  constructor
  · intro hsrc
    simp [copy_to, hsrc]
  · intro mode hsrc hst hdir hreg
    simp [copy_to, hsrc, hst, hdir, hreg]

/-- C8 witness: a missing source errors with an empty trace; a symlink
destination mode (directory bit clear, symlink bit set) errors after the
stat only. -/
theorem upload_policy_errors_witness :
    copy_to ⟨false, .ok 0, [], false⟩ "/tmp/d" "/home/missing" =
      (.copyError ("Not a file: " ++ "/home/missing"), []) ∧
    copy_to ⟨true, .ok MODE_SYMLINK, [], false⟩ "/tmp/link" "/home/src1" =
      (.copyError ("Unable to overwrite " ++ "/tmp/link"),
        [.statFetch "/tmp/link"]) :=
  ⟨(upload_policy_errors ⟨false, .ok 0, [], false⟩ _ _).1 rfl,
    (upload_policy_errors ⟨true, .ok MODE_SYMLINK, [], false⟩ _ _).2
      MODE_SYMLINK rfl rfl (by decide) (by decide)⟩

/-! ## Claims about the CLI driver -/

theorem copy_from_fetch_chunk (w : DownloadWorld) (path dest p : String)
    (n : Nat) (h : Event.fetch p n ∈ (copy_from w path dest).2) :
    n = DEFAULT_BUF_SIZE := by
  unfold copy_from at h
  rcases hf : w.fetchRes with u | mode <;> rw [hf] at h
  · simp at h
    exact h.2
  · cases h1 : _is_reg mode <;> cases h2 : w.tarFails <;>
      cases h3 : w.destIsDir <;> cases h4 : w.parentIsDir <;>
      cases h5 : w.destOpenIsADir <;>
      simp [h1, h2, h3, h4, h5] at h <;> tauto

theorem copy_to_no_fetch (w : UploadWorld) (path src p : String) (n : Nat) :
    Event.fetch p n ∉ (copy_to w path src).2 := by
  intro h
  cases h0 : w.srcIsFile
  · simp [copy_to, h0] at h
  · rcases hst : w.statRes with u | mode
    · cases h3 : w.putFails <;> simp [copy_to, h0, hst, h3] at h
    · cases h1 : _is_dir mode <;> cases h2 : _is_reg mode <;>
        cases h3 : w.putFails <;>
        simp [copy_to, h0, hst, h1, h2, h3] at h

theorem mapOutcome_cases (pr : Outcome × List Event) :
    (pr.1 = .ok → mapOutcome pr = .ok (0, pr.2)) ∧
    (pr.1 = .apiError → mapOutcome pr = .ok (2, pr.2)) ∧
    (∀ msg, pr.1 = .copyError msg → mapOutcome pr = .ok (2, pr.2)) ∧
    (pr.1 = .other → mapOutcome pr = .error ()) := by
  rcases pr with ⟨o, t⟩
  cases o <;> simp [mapOutcome]

theorem mapOutcome_trace (o : Outcome) (t : List Event) (c : Nat)
    (tr : List Event) (h : mapOutcome (o, t) = .ok (c, tr)) : tr = t := by
  cases o <;> simp [mapOutcome] at h <;> tauto

theorem tryBlock_trace (env : CopyEnv) (f : CopyEnv → Outcome × List Event) :
    (tryBlock env f).2 = [] ∨ (tryBlock env f).2 = (f env).2 := by
  cases h : env.lookup <;> simp [tryBlock, h]

theorem copy_trace_shape (env : CopyEnv) (args : Args) (code : Nat)
    (tr : List Event) (hc : copy env args = .ok (code, tr)) :
    tr = [] ∨
      tr = (copy_from env.dl (splitSep args.source).2 args.destination).2 ∨
      tr = (copy_to env.ul (splitSep args.destination).2 args.source).2 := by
  by_cases hb : args.buffer_length ≤ 0
  · simp [copy, hb] at hc
    exact Or.inl hc.2
  · by_cases hs1 : (hasSep args.source && ! hasSep args.destination) = true
    · have hc' : mapOutcome (tryBlock env
          (fun e => copy_from e.dl (splitSep args.source).2 args.destination)) =
          .ok (code, tr) := by
        rw [← hc]; simp [copy, hb, hs1]
      rcases htb : tryBlock env
          (fun e => copy_from e.dl (splitSep args.source).2 args.destination)
        with ⟨o, t⟩
      rw [htb] at hc'
      have ht := mapOutcome_trace o t code tr hc'
      have hsh := tryBlock_trace env
        (fun e => copy_from e.dl (splitSep args.source).2 args.destination)
      rw [htb] at hsh
      rcases hsh with h | h
      · exact Or.inl (ht.trans h)
      · exact Or.inr (Or.inl (ht.trans h))
    · by_cases hs2 : (hasSep args.destination && ! hasSep args.source) = true
      · have hc' : mapOutcome (tryBlock env
            (fun e => copy_to e.ul (splitSep args.destination).2 args.source)) =
            .ok (code, tr) := by
          rw [← hc]; simp [copy, hb, hs1, hs2]
        rcases htb : tryBlock env
            (fun e => copy_to e.ul (splitSep args.destination).2 args.source)
          with ⟨o, t⟩
        rw [htb] at hc'
        have ht := mapOutcome_trace o t code tr hc'
        have hsh := tryBlock_trace env
          (fun e => copy_to e.ul (splitSep args.destination).2 args.source)
        rw [htb] at hsh
        rcases hsh with h | h
        · exact Or.inl (ht.trans h)
        · exact Or.inr (Or.inr (ht.trans h))
      · simp [copy, hb, hs1, hs2] at hc
        exact Or.inl hc.2

/-- C2 divergence witness theorem: every archive fetch any invocation of
the driver performs uses `DEFAULT_BUF_SIZE` (1024) as its chunk size,
whatever `args.buffer_length` is — `copy` never hands the CLI option to
`copy_from`, whose `get_archive` call hardcodes `DEFAULT_BUF_SIZE`. -/
theorem copy_fetch_ignores_buffer_length (env : CopyEnv) (args : Args)
    (code : Nat) (tr : List Event) (p : String) (n : Nat)
    (hc : copy env args = .ok (code, tr)) (hm : Event.fetch p n ∈ tr) :
    n = DEFAULT_BUF_SIZE := by
  rcases copy_trace_shape env args code tr hc with h | h | h
  · rw [h] at hm
    simp at hm
  · rw [h] at hm
    exact copy_from_fetch_chunk _ _ _ _ _ hm
  · rw [h] at hm
    exact absurd hm (copy_to_no_fetch _ _ _ _ _)

/-- C2 witness: a download invoked with `--buffer-length 2` still fetches
with chunk size 1024. -/
theorem copy_fetch_ignores_buffer_length_witness :
    (1024 : Nat) = DEFAULT_BUF_SIZE :=
  copy_fetch_ignores_buffer_length
    ⟨.ok, ⟨.ok 0, [102], false, true, true, false⟩, ⟨true, .ok 0, [], false⟩⟩
    ⟨"test:/etc/fedora-release", "/tmp", 2⟩ 0
    [.fetch "/etc/fedora-release" 1024, .tarOpen 1024, .extractAll "/tmp",
      .closeData]
    "/etc/fedora-release" 1024 rfl (by simp)

/-- C9: exit-code mapping of the driver. A non-positive buffer length, or
source and destination agreeing on carrying the `:` marker (neither or
both), returns 1 with no engine interaction; otherwise the attempted
operation's outcome maps success to 0, `APIError` and `CopyError` to 2,
and any other exception propagates unmapped. -/
theorem copy_exit_codes (env : CopyEnv) (args : Args) :
    ((args.buffer_length ≤ 0 ∨ hasSep args.source = hasSep args.destination) →
      copy env args = .ok (1, [])) ∧
    (0 < args.buffer_length → hasSep args.source ≠ hasSep args.destination →
      ((attempt env args).1 = .ok →
        copy env args = .ok (0, (attempt env args).2)) ∧
      ((attempt env args).1 = .apiError →
        copy env args = .ok (2, (attempt env args).2)) ∧
      (∀ msg, (attempt env args).1 = .copyError msg →
        copy env args = .ok (2, (attempt env args).2)) ∧
      ((attempt env args).1 = .other → copy env args = .error ())) := by
  constructor
  · intro h
    by_cases hb : args.buffer_length ≤ 0
    · simp [copy, hb]
    · have he : hasSep args.source = hasSep args.destination :=
        h.resolve_left hb
      have h1 : (hasSep args.source && ! hasSep args.destination) = false := by
        rw [he]; cases hasSep args.destination <;> simp
      have h2 : (hasSep args.destination && ! hasSep args.source) = false := by
        rw [he]; cases hasSep args.destination <;> simp
      simp [copy, hb, h1, h2]
  · intro hpos hne
    have hb : ¬ args.buffer_length ≤ 0 := by omega
    have hcopy : copy env args = mapOutcome (attempt env args) := by
      cases hs : hasSep args.source <;> cases hd : hasSep args.destination
      · exact absurd (hs.trans hd.symm) hne
      · simp [copy, attempt, hb, hs, hd]
      · simp [copy, attempt, hb, hs, hd]
      · exact absurd (hs.trans hd.symm) hne
    refine ⟨?_, ?_, ?_, ?_⟩
    · intro h
      rw [hcopy]
      exact (mapOutcome_cases (attempt env args)).1 h
    · intro h
      rw [hcopy]
      exact (mapOutcome_cases (attempt env args)).2.1 h
    · intro msg h
      rw [hcopy]
      exact (mapOutcome_cases (attempt env args)).2.2.1 msg h
    · intro h
      rw [hcopy]
      exact (mapOutcome_cases (attempt env args)).2.2.2 h

/-- C9 witness: a purely local invocation (no `:` on either side) exits 1
with no engine interaction even though the engine would answer; a valid
download invocation whose attempt succeeds exits 0. -/
theorem copy_exit_codes_witness :
    copy ⟨.ok, ⟨.ok 0, [102], false, true, true, false⟩,
        ⟨true, .ok 0, [], false⟩⟩ ⟨"/etc/r", "/tmp", 2⟩ = .ok (1, []) ∧
    copy ⟨.ok, ⟨.ok 0, [102], false, true, true, false⟩,
        ⟨true, .ok 0, [], false⟩⟩ ⟨"test:/etc/r", "/tmp", 2⟩ =
      .ok (0, (attempt ⟨.ok, ⟨.ok 0, [102], false, true, true, false⟩,
        ⟨true, .ok 0, [], false⟩⟩ ⟨"test:/etc/r", "/tmp", 2⟩).2) :=
  ⟨(copy_exit_codes _ _).1 (Or.inr (by decide)),
    ((copy_exit_codes _ _).2 (by decide) (by decide)).1 rfl⟩

/-- C4 as amended: for every 32-bit mode value, `_is_dir` holds iff the
directory bit of the mode is set — regardless of the other special bits. -/
theorem is_dir_iff_dir_bit (m : Nat) (_h : m < 2 ^ 32) :
    _is_dir m = true ↔ m &&& MODE_DIR ≠ 0 := by
  unfold _is_dir
  simp [bne_iff_ne]

/-- C4 amended witness: the plain directory mode is classified as a
directory. -/
theorem is_dir_iff_dir_bit_witness : _is_dir MODE_DIR = true :=
  (is_dir_iff_dir_bit MODE_DIR (by decide)).mpr (by decide)
